import Mathlib

/-!
Verification of the lane-inference engine and compact lane codec of
`map_model/src/make/initial/lane_specs.rs`.

The Rust source is shallowly embedded: `RoadSpec.parse` and the `Display`
implementation are translated character-for-character, and `get_lane_types`
is translated with its `let` bindings and sequential mutations made into
explicit stage functions applied in the source's order.  The `panic!` on a
malformed synthetic-lanes override is modelled by `Option`: `none` is the
panic, `some` a normal return.
-/

set_option autoImplicit false

/-- The closed five-variant lane enumeration (`LaneType` in the repository). -/
inductive LaneType where
  | Driving
  | Parking
  | Sidewalk
  | Biking
  | Bus
deriving DecidableEq, Repr

/-- A tag mapping: association list from key to value, first binding wins
(the source's `BTreeMap` has unique keys, so lookup order is immaterial). -/
def TagMap : Type := List (String × String)

/-- `osm_tags.get(k)` on the `BTreeMap`. -/
def getTag (t : TagMap) (k : String) : Option String :=
  (List.find? (fun p => p.1 = k) t).map (fun p => p.2)

/-- Modelled from the spec: the designated synthetic-override tag key
(`osm::SYNTHETIC_LANES`, declared in the repository's `osm` module which is
not among the provided sources).  The spec lists it as a key distinct from
every other key the engine reads. -/
def osm.SYNTHETIC_LANES : String := "abst:synthetic_lanes"

/-- Modelled from the spec: the forward-parking flag tag key
(`osm::PARKING_LANE_FWD` from the repository's `osm` module, not among the
provided sources); distinct from every other key the engine reads. -/
def osm.PARKING_LANE_FWD : String := "abst:parking_lane_fwd"

/-- Modelled from the spec: the backward-parking flag tag key
(`osm::PARKING_LANE_BACK` from the repository's `osm` module, not among the
provided sources); distinct from every other key the engine reads. -/
def osm.PARKING_LANE_BACK : String := "abst:parking_lane_back"

/-- Modelled from the spec: `osm::HIGHWAY`, the `highway` tag key (the spec
names the tag `highway` explicitly). -/
def osm.HIGHWAY : String := "highway"

/-- `RoadSpec::lt_to_char`. -/
def RoadSpec.lt_to_char : LaneType → Char
  | .Driving => 'd'
  | .Parking => 'p'
  | .Sidewalk => 's'
  | .Biking => 'b'
  | .Bus => 'u'

/-- `RoadSpec::char_to_lt`. -/
def RoadSpec.char_to_lt (c : Char) : Option LaneType :=
  if c = 'd' then some .Driving
  else if c = 'p' then some .Parking
  else if c = 's' then some .Sidewalk
  else if c = 'b' then some .Biking
  else if c = 'u' then some .Bus
  else none

/-- `RoadSpec`: a lane layout, forward and backward lane sequences. -/
structure RoadSpec where
  fwd : List LaneType
  back : List LaneType
deriving DecidableEq, Repr

/-- The character loop of `RoadSpec::parse`, with the accumulators `fwd`,
`back` and `seen_slash` made explicit, followed by the final check
`seen_slash && (fwd.len() + back.len()) > 0`. -/
def RoadSpec.parseChars : List Char → List LaneType → List LaneType → Bool → Option RoadSpec
  | [], fwd, back, seenSlash =>
      if seenSlash = true ∧ fwd.length + back.length > 0 then
        some ⟨fwd, back⟩
      else
        none
  | c :: rest, fwd, back, seenSlash =>
      if seenSlash = false ∧ c = '/' then
        RoadSpec.parseChars rest fwd back true
      else
        match RoadSpec.char_to_lt c with
        | some lt =>
            if seenSlash = true then
              RoadSpec.parseChars rest fwd (back ++ [lt]) seenSlash
            else
              RoadSpec.parseChars rest (fwd ++ [lt]) back seenSlash
        | none => none

/-- `RoadSpec::parse`. -/
def RoadSpec.parse (s : String) : Option RoadSpec :=
  RoadSpec.parseChars s.data [] [] false

/-- The `fmt::Display` implementation for `RoadSpec` (the encoder): each
forward lane's character, then `/`, then each backward lane's character. -/
def RoadSpec.encode (spec : RoadSpec) : String :=
  ⟨spec.fwd.map RoadSpec.lt_to_char ++ '/' :: spec.back.map RoadSpec.lt_to_char⟩

example : RoadSpec.parse "ds/s" = some ⟨[.Driving, .Sidewalk], [.Sidewalk]⟩ := by decide
example : RoadSpec.parse "d//x" = none := by decide
example : RoadSpec.parse "/" = none := by decide
example : RoadSpec.encode ⟨[.Driving, .Sidewalk], [.Sidewalk]⟩ = "ds/s" := by decide

/-- One decimal digit of `str::parse::<usize>`. -/
def digitVal (c : Char) : Option Nat :=
  if '0' ≤ c ∧ c ≤ '9' then some (c.toNat - '0'.toNat) else none

/-- The digit-accumulation loop of `str::parse::<usize>`. -/
def parseDigits : List Char → Nat → Option Nat
  | [], acc => some acc
  | c :: rest, acc =>
      match digitVal c with
      | some d => parseDigits rest (acc * 10 + d)
      | none => none

/-- `str::parse::<usize>` (Rust): optional leading `+`, then one or more
decimal digits, rejecting the empty string and values past `usize::MAX`
(the repository targets 64-bit platforms, so the bound is 2^64). -/
def parseUsize (s : String) : Option Nat :=
  let cs :=
    match s.data with
    | '+' :: rest => rest
    | cs => cs
  if cs = [] then none
  else
    match parseDigits cs 0 with
    | some n => if n < 18446744073709551616 then some n else none
    | none => none

/-- The `oneway` binding: the tag value is exactly `yes` or `reversible`. -/
def oneway (t : TagMap) : Bool :=
  getTag t "oneway" = some "yes" ∨ getTag t "oneway" = some "reversible"

/-- The `parking_lane_fwd` binding. -/
def parking_lane_fwd (t : TagMap) : Bool :=
  getTag t osm.PARKING_LANE_FWD = some "true"

/-- The `parking_lane_back` binding. -/
def parking_lane_back (t : TagMap) : Bool :=
  getTag t osm.PARKING_LANE_BACK = some "true"

/-- The `num_driving_fwd` binding: `lanes:forward` if it parses, else the
split of `lanes`, else the default 1. -/
def num_driving_fwd (t : TagMap) : Nat :=
  match (getTag t "lanes:forward").bind parseUsize with
  | some n => n
  | none =>
      match (getTag t "lanes").bind parseUsize with
      | some n =>
          if oneway t then n
          else if n % 2 = 0 then n / 2
          else max (n / 2) 1
      | none => 1

/-- The `num_driving_back` binding: `lanes:backward` if it parses, else the
split of `lanes`, else 0 when one-way and 1 otherwise. -/
def num_driving_back (t : TagMap) : Nat :=
  match (getTag t "lanes:backward").bind parseUsize with
  | some n => n
  | none =>
      match (getTag t "lanes").bind parseUsize with
      | some n =>
          if oneway t then 0
          else if n % 2 = 0 then n / 2
          else max (n / 2) 1
      | none => if oneway t then 0 else 1

/-- The initial `fwd_side` / `back_side` vectors: `num_driving_fwd` (resp.
`num_driving_back`) copies of `Driving`. -/
def drivingSides (t : TagMap) : List LaneType × List LaneType :=
  (List.replicate (num_driving_fwd t) .Driving,
   List.replicate (num_driving_back t) .Driving)

/-- The bus-lane block: if a `bus:lanes` key is present, `pop` then `push
Bus` on `fwd_side`, and the same on `back_side` when it is non-empty
(`pop` on an empty vector is a no-op, so `pop` + `push` is `dropLast`
followed by appending). -/
def busStage (t : TagMap) (p : List LaneType × List LaneType) :
    List LaneType × List LaneType :=
  if (getTag t "bus:lanes").isSome then
    (p.1.dropLast ++ [.Bus],
     if p.2.isEmpty then p.2 else p.2.dropLast ++ [.Bus])
  else p

/-- The cycleway block: `cycleway = lane` appends `Biking` forward and, when
non-empty, backward; otherwise `cycleway:right` / `cycleway:left` append to
the respective side. -/
def bikeStage (t : TagMap) (p : List LaneType × List LaneType) :
    List LaneType × List LaneType :=
  if getTag t "cycleway" = some "lane" then
    (p.1 ++ [.Biking],
     if p.2.isEmpty then p.2 else p.2 ++ [.Biking])
  else
    ((if getTag t "cycleway:right" = some "lane" then p.1 ++ [.Biking] else p.1),
     (if getTag t "cycleway:left" = some "lane" then p.2 ++ [.Biking] else p.2))

/-- `str::ends_with` on the character sequence: the last `suffix.length`
characters of `s` are exactly `suffix`. -/
def strEndsWith (s suffix : String) : Bool :=
  s.data.drop (s.data.length - suffix.data.length) = suffix.data

/-- The `definitely_no_parking` binding: the `highway` value ends with
`_link` or equals `motorway`; `false` when the key is absent. -/
def definitely_no_parking (t : TagMap) : Bool :=
  match getTag t osm.HIGHWAY with
  | some hwy => strEndsWith hwy "_link" || hwy = "motorway"
  | none => false

/-- The parking block: append `Parking` forward when the forward flag holds
and parking is not ruled out; same backward, additionally requiring
`back_side` non-empty. -/
def parkingStage (t : TagMap) (p : List LaneType × List LaneType) :
    List LaneType × List LaneType :=
  ((if parking_lane_fwd t ∧ ¬ definitely_no_parking t then p.1 ++ [.Parking] else p.1),
   (if parking_lane_back t ∧ ¬ definitely_no_parking t ∧ ¬ p.2.isEmpty then
      p.2 ++ [.Parking]
    else p.2))

/-- The `has_sidewalk` binding: `highway` is neither `motorway` nor
`motorway_link`. -/
def has_sidewalk (t : TagMap) : Bool :=
  getTag t osm.HIGHWAY ≠ some "motorway" ∧ getTag t osm.HIGHWAY ≠ some "motorway_link"

/-- The sidewalk block: when `has_sidewalk`, append `Sidewalk` forward
always, and backward when the road is not one-way or (one-way) `highway =
residential` or `sidewalk = both`. -/
def sidewalkStage (t : TagMap) (p : List LaneType × List LaneType) :
    List LaneType × List LaneType :=
  if has_sidewalk t then
    (p.1 ++ [.Sidewalk],
     if oneway t then
       if getTag t osm.HIGHWAY = some "residential" ∨ getTag t "sidewalk" = some "both" then
         p.2 ++ [.Sidewalk]
       else p.2
     else p.2 ++ [.Sidewalk])
  else p

/-- The body of `get_lane_types` after the override check: the categorical
special cases, then the sequential mutations of `fwd_side` / `back_side` in
source order. -/
def inferFromTags (t : TagMap) : List LaneType × List LaneType :=
  if getTag t "junction" = some "roundabout" then
    ([.Driving, .Sidewalk], [])
  else if getTag t osm.HIGHWAY = some "footway" then
    ([.Sidewalk], [])
  else
    sidewalkStage t (parkingStage t (bikeStage t (busStage t (drivingSides t))))

/-- `get_lane_types`: the override escape hatch, then the rule chain.
`none` models the `panic!` on an override value that fails to parse. -/
def get_lane_types (t : TagMap) : Option (List LaneType × List LaneType) :=
  match getTag t osm.SYNTHETIC_LANES with
  | some s => (RoadSpec.parse s).map (fun spec => (spec.fwd, spec.back))
  | none => some (inferFromTags t)

example : get_lane_types [("junction", "roundabout")] =
    some ([.Driving, .Sidewalk], []) := by decide
example : get_lane_types [("highway", "footway")] = some ([.Sidewalk], []) := by decide
example : get_lane_types [("highway", "residential"), ("lanes", "2")] =
    some ([.Driving, .Sidewalk], [.Driving, .Sidewalk]) := by decide
example : get_lane_types [("highway", "primary"), ("oneway", "yes"), ("lanes", "3")] =
    some ([.Driving, .Driving, .Driving, .Sidewalk], []) := by decide
example : get_lane_types [("highway", "residential"), ("lanes", "2"), ("bus:lanes", "x")] =
    some ([.Bus, .Sidewalk], [.Bus, .Sidewalk]) := by decide
example : get_lane_types [("highway", "motorway"), ("lanes", "4")] =
    some ([.Driving, .Driving], [.Driving, .Driving]) := by decide
example : get_lane_types [(osm.SYNTHETIC_LANES, "ds/s"), ("lanes", "4")] =
    some ([.Driving, .Sidewalk], [.Sidewalk]) := by decide
example : get_lane_types [(osm.SYNTHETIC_LANES, "d//x")] = none := by decide

/-! ### Codec lemmas -/

theorem lt_to_char_ne_slash (a : LaneType) : ¬ RoadSpec.lt_to_char a = '/' := by
  cases a <;> decide

theorem char_to_lt_lt_to_char (a : LaneType) :
    RoadSpec.char_to_lt (RoadSpec.lt_to_char a) = some a := by
  cases a <;> decide

theorem lt_to_char_of_char_to_lt {c : Char} {a : LaneType}
    (h : RoadSpec.char_to_lt c = some a) : RoadSpec.lt_to_char a = c := by
  unfold RoadSpec.char_to_lt at h
  split_ifs at h <;> (injection h with h; subst h) <;> simp_all [RoadSpec.lt_to_char]

theorem parseChars_nil (fwd back : List LaneType) (seen : Bool) :
    RoadSpec.parseChars [] fwd back seen =
      if seen = true ∧ fwd.length + back.length > 0 then some ⟨fwd, back⟩ else none := rfl

theorem parseChars_cons_slash (rest : List Char) (fwd back : List LaneType) :
    RoadSpec.parseChars ('/' :: rest) fwd back false =
    RoadSpec.parseChars rest fwd back true := by
  simp [RoadSpec.parseChars]

theorem parseChars_cons_lane_false {c : Char} {lt : LaneType}
    (h : RoadSpec.char_to_lt c = some lt) (hc : c ≠ '/')
    (rest : List Char) (fwd back : List LaneType) :
    RoadSpec.parseChars (c :: rest) fwd back false =
    RoadSpec.parseChars rest (fwd ++ [lt]) back false := by
  simp [RoadSpec.parseChars, h, hc]

theorem parseChars_cons_lane_true {c : Char} {lt : LaneType}
    (h : RoadSpec.char_to_lt c = some lt)
    (rest : List Char) (fwd back : List LaneType) :
    RoadSpec.parseChars (c :: rest) fwd back true =
    RoadSpec.parseChars rest fwd (back ++ [lt]) true := by
  simp [RoadSpec.parseChars, h]

theorem parseChars_cons_none_false {c : Char}
    (h : RoadSpec.char_to_lt c = none) (hc : c ≠ '/')
    (rest : List Char) (fwd back : List LaneType) :
    RoadSpec.parseChars (c :: rest) fwd back false = none := by
  simp [RoadSpec.parseChars, h, hc]

theorem parseChars_cons_none_true {c : Char}
    (h : RoadSpec.char_to_lt c = none)
    (rest : List Char) (fwd back : List LaneType) :
    RoadSpec.parseChars (c :: rest) fwd back true = none := by
  simp [RoadSpec.parseChars, h]

theorem parseChars_append_fwd (l : List LaneType) (rest : List Char)
    (fwd back : List LaneType) :
    RoadSpec.parseChars (l.map RoadSpec.lt_to_char ++ rest) fwd back false =
    RoadSpec.parseChars rest (fwd ++ l) back false := by
  induction l generalizing fwd with
  | nil => simp
  | cons a l ih =>
      rw [List.map_cons, List.cons_append,
        parseChars_cons_lane_false (char_to_lt_lt_to_char a) (lt_to_char_ne_slash a),
        ih, List.append_assoc]
      rfl

theorem parseChars_append_back (l : List LaneType) (rest : List Char)
    (fwd back : List LaneType) :
    RoadSpec.parseChars (l.map RoadSpec.lt_to_char ++ rest) fwd back true =
    RoadSpec.parseChars rest fwd (back ++ l) true := by
  induction l generalizing back with
  | nil => simp
  | cons a l ih =>
      rw [List.map_cons, List.cons_append,
        parseChars_cons_lane_true (char_to_lt_lt_to_char a),
        ih, List.append_assoc]
      rfl

theorem parse_encode_eq (spec : RoadSpec) :
    RoadSpec.parse spec.encode =
      if 0 < spec.fwd.length + spec.back.length then some spec else none := by
  show RoadSpec.parseChars
      (spec.fwd.map RoadSpec.lt_to_char ++ '/' :: spec.back.map RoadSpec.lt_to_char)
      [] [] false = _
  rw [parseChars_append_fwd, parseChars_cons_slash]
  have h2 := parseChars_append_back spec.back [] ([] ++ spec.fwd) []
  rw [List.append_nil] at h2
  rw [h2, parseChars_nil]
  simp

theorem parseChars_some_back (cs : List Char) :
    ∀ (fwd back : List LaneType) (spec : RoadSpec),
      RoadSpec.parseChars cs fwd back true = some spec →
      spec.fwd = fwd ∧
        spec.back.map RoadSpec.lt_to_char = back.map RoadSpec.lt_to_char ++ cs := by
  induction cs with
  | nil =>
      intro fwd back spec h
      rw [parseChars_nil] at h
      split_ifs at h
      injection h with h
      subst h
      simp
  | cons c rest ih =>
      intro fwd back spec h
      cases heq : RoadSpec.char_to_lt c with
      | some lt =>
          rw [parseChars_cons_lane_true heq] at h
          obtain ⟨h1, h2⟩ := ih fwd (back ++ [lt]) spec h
          refine ⟨h1, ?_⟩
          rw [h2, List.map_append, List.append_assoc]
          simp [lt_to_char_of_char_to_lt heq]
      | none =>
          rw [parseChars_cons_none_true heq] at h
          exact absurd h (by simp)

theorem parseChars_some_fwd (cs : List Char) :
    ∀ (fwd : List LaneType) (spec : RoadSpec),
      RoadSpec.parseChars cs fwd [] false = some spec →
      spec.fwd.map RoadSpec.lt_to_char ++ '/' :: spec.back.map RoadSpec.lt_to_char =
        fwd.map RoadSpec.lt_to_char ++ cs := by
  induction cs with
  | nil =>
      intro fwd spec h
      rw [parseChars_nil] at h
      simp at h
  | cons c rest ih =>
      intro fwd spec h
      by_cases hc : c = '/'
      · subst hc
        rw [parseChars_cons_slash] at h
        obtain ⟨h1, h2⟩ := parseChars_some_back rest fwd [] spec h
        rw [h1, h2]
        simp
      · cases heq : RoadSpec.char_to_lt c with
        | some lt =>
            rw [parseChars_cons_lane_false heq hc] at h
            rw [ih (fwd ++ [lt]) spec h, List.map_append, List.append_assoc]
            simp [lt_to_char_of_char_to_lt heq]
        | none =>
            rw [parseChars_cons_none_false heq hc] at h
            exact absurd h (by simp)

theorem parseChars_no_slash (cs : List Char) :
    ∀ (fwd back : List LaneType), '/' ∉ cs →
      RoadSpec.parseChars cs fwd back false = none := by
  induction cs with
  | nil => intro fwd back _; rfl
  | cons c rest ih =>
      intro fwd back h
      rw [List.mem_cons, not_or] at h
      have hc : c ≠ '/' := fun heq => h.1 heq.symm
      cases heq : RoadSpec.char_to_lt c with
      | some lt => rw [parseChars_cons_lane_false heq hc]; exact ih _ _ h.2
      | none => exact parseChars_cons_none_false heq hc rest fwd back

theorem parseChars_slash_after (cs : List Char) :
    ∀ (fwd back : List LaneType), '/' ∈ cs →
      RoadSpec.parseChars cs fwd back true = none := by
  induction cs with
  | nil => intro _ _ h; cases h
  | cons c rest ih =>
      intro fwd back h
      rcases List.mem_cons.1 h with h | h
      · exact parseChars_cons_none_true (by rw [← h]; rfl) rest fwd back
      · cases heq : RoadSpec.char_to_lt c with
        | some lt => rw [parseChars_cons_lane_true heq]; exact ih _ _ h
        | none => exact parseChars_cons_none_true heq rest fwd back

theorem parseChars_two_slashes (cs : List Char) :
    ∀ (fwd back : List LaneType), 2 ≤ cs.count '/' →
      RoadSpec.parseChars cs fwd back false = none := by
  induction cs with
  | nil => intro _ _ h; simp at h
  | cons c rest ih =>
      intro fwd back h
      by_cases hc : c = '/'
      · subst hc
        rw [parseChars_cons_slash]
        refine parseChars_slash_after rest fwd back (List.count_pos_iff.1 ?_)
        rw [List.count_cons_self] at h
        omega
      · rw [List.count_cons_of_ne (Ne.symm hc)] at h
        cases heq : RoadSpec.char_to_lt c with
        | some lt => rw [parseChars_cons_lane_false heq hc]; exact ih _ _ h
        | none => exact parseChars_cons_none_false heq hc rest fwd back

theorem parseChars_bad_char (cs : List Char) :
    ∀ (fwd back : List LaneType) (seen : Bool),
      (∃ c ∈ cs, c ≠ '/' ∧ RoadSpec.char_to_lt c = none) →
      RoadSpec.parseChars cs fwd back seen = none := by
  induction cs with
  | nil => intro _ _ _ h; simp at h
  | cons c rest ih =>
      intro fwd back seen h
      rcases h with ⟨x, hx, hne, hbad⟩
      rcases List.mem_cons.1 hx with h | h
      · subst h
        cases seen with
        | false => exact parseChars_cons_none_false hbad hne rest fwd back
        | true => exact parseChars_cons_none_true hbad rest fwd back
      · cases seen with
        | false =>
            by_cases hc : c = '/'
            · subst hc
              rw [parseChars_cons_slash]
              exact ih _ _ _ ⟨x, h, hne, hbad⟩
            · cases heq : RoadSpec.char_to_lt c with
              | some lt =>
                  rw [parseChars_cons_lane_false heq hc]
                  exact ih _ _ _ ⟨x, h, hne, hbad⟩
              | none => exact parseChars_cons_none_false heq hc rest fwd back
        | true =>
            cases heq : RoadSpec.char_to_lt c with
            | some lt =>
                rw [parseChars_cons_lane_true heq]
                exact ih _ _ _ ⟨x, h, hne, hbad⟩
            | none => exact parseChars_cons_none_true heq rest fwd back

theorem parseChars_no_lane_char (cs : List Char) :
    ∀ (seen : Bool), (∀ c ∈ cs, RoadSpec.char_to_lt c = none) →
      RoadSpec.parseChars cs [] [] seen = none := by
  induction cs with
  | nil => intro seen _; cases seen <;> rfl
  | cons c rest ih =>
      intro seen h
      have hc := h c (List.mem_cons_self c rest)
      have hrest := fun x hx => h x (List.mem_cons_of_mem c hx)
      cases seen with
      | false =>
          by_cases hsl : c = '/'
          · subst hsl
            rw [parseChars_cons_slash]
            exact ih true hrest
          · exact parseChars_cons_none_false hc hsl rest [] []
      | true => exact parseChars_cons_none_true hc rest [] []

/-! ### Codec claims -/

/-- C1 (counterexample): the layout with both sequences empty does not
round-trip: it encodes to `/`, which `parse` rejects, so
`decode(encode(layout))` is not the original layout. -/
theorem encode_empty_not_roundtrip :
    RoadSpec.parse (RoadSpec.encode ⟨[], []⟩) ≠ some ⟨[], []⟩ := by decide

/-- C1 (amended): for every `LaneLayout` with at least one lane across the
two sequences, decoding the string produced by encoding it yields back
exactly the same layout. -/
theorem encode_then_decode (spec : RoadSpec)
    (h : 0 < spec.fwd.length + spec.back.length) :
    RoadSpec.parse spec.encode = some spec := by
  rw [parse_encode_eq, if_pos h]

theorem encode_then_decode_witness :
    RoadSpec.parse (RoadSpec.encode ⟨[.Driving], [.Sidewalk]⟩) =
      some ⟨[.Driving], [.Sidewalk]⟩ :=
  encode_then_decode ⟨[.Driving], [.Sidewalk]⟩ (by decide)

/-- C3: `parse` returns `none` for every string with no `/`, for every
string with at least two `/`, for every string containing a character that
is neither a lane character nor `/`, and for every string with no lane
character at all — which covers the string consisting of exactly `/`. -/
theorem parse_rejects_malformed (s : String)
    (h : '/' ∉ s.data ∨ 2 ≤ s.data.count '/' ∨
      (∃ c ∈ s.data, c ≠ '/' ∧ RoadSpec.char_to_lt c = none) ∨
      (∀ c ∈ s.data, RoadSpec.char_to_lt c = none)) :
    RoadSpec.parse s = none := by
  rcases h with h | h | h | h
  · exact parseChars_no_slash s.data [] [] h
  · exact parseChars_two_slashes s.data [] [] h
  · exact parseChars_bad_char s.data [] [] false h
  · exact parseChars_no_lane_char s.data false h

theorem parse_rejects_malformed_witness : RoadSpec.parse "/" = none :=
  parse_rejects_malformed "/" (Or.inr (Or.inr (Or.inr (by decide))))

/-- C10: for every string accepted by `parse`, re-encoding the decoded
layout reproduces the string exactly. -/
theorem decode_then_encode (s : String) (spec : RoadSpec)
    (h : RoadSpec.parse s = some spec) : RoadSpec.encode spec = s := by
  have h2 := parseChars_some_fwd s.data [] spec h
  simp only [List.map_nil, List.nil_append] at h2
  unfold RoadSpec.encode
  rw [h2]

theorem decode_then_encode_witness :
    RoadSpec.encode ⟨[.Driving], [.Sidewalk]⟩ = "d/s" :=
  decode_then_encode "d/s" ⟨[.Driving], [.Sidewalk]⟩ (by decide)

/-! ### Engine stage lemmas -/

theorem mem_of_getLast?_eq {α : Type} {l : List α} {a : α}
    (h : l.getLast? = some a) : a ∈ l := by
  induction l with
  | nil => cases h
  | cons x xs ih =>
      cases xs with
      | nil =>
          injection h with h
          subst h
          exact List.mem_singleton_self x
      | cons y ys =>
          rw [List.getLast?_cons_cons] at h
          exact List.mem_cons_of_mem x (ih h)

theorem busStage_fst_mem (t : TagMap) (p : List LaneType × List LaneType) :
    ∀ x ∈ (busStage t p).1, x ∈ p.1 ∨ x = .Bus := by
  intro x hx
  unfold busStage at hx
  by_cases hb : (getTag t "bus:lanes").isSome = true
  · rw [if_pos hb] at hx
    rcases List.mem_append.1 hx with h | h
    · exact Or.inl ((List.dropLast_sublist p.1).subset h)
    · exact Or.inr (List.mem_singleton.1 h)
  · rw [if_neg hb] at hx
    exact Or.inl hx

theorem busStage_snd_mem (t : TagMap) (p : List LaneType × List LaneType) :
    ∀ x ∈ (busStage t p).2, x ∈ p.2 ∨ x = .Bus := by
  intro x hx
  unfold busStage at hx
  by_cases hb : (getTag t "bus:lanes").isSome = true
  · rw [if_pos hb] at hx
    by_cases he : p.2.isEmpty = true
    · rw [if_pos he] at hx
      exact Or.inl hx
    · rw [if_neg he] at hx
      rcases List.mem_append.1 hx with h | h
      · exact Or.inl ((List.dropLast_sublist p.2).subset h)
      · exact Or.inr (List.mem_singleton.1 h)
  · rw [if_neg hb] at hx
    exact Or.inl hx

theorem bikeStage_fst_mem (t : TagMap) (p : List LaneType × List LaneType) :
    ∀ x ∈ (bikeStage t p).1, x ∈ p.1 ∨ x = .Biking := by
  intro x hx
  unfold bikeStage at hx
  by_cases hc : getTag t "cycleway" = some "lane"
  · rw [if_pos hc] at hx
    rcases List.mem_append.1 hx with h | h
    · exact Or.inl h
    · exact Or.inr (List.mem_singleton.1 h)
  · rw [if_neg hc] at hx
    by_cases hr : getTag t "cycleway:right" = some "lane"
    · rw [if_pos hr] at hx
      rcases List.mem_append.1 hx with h | h
      · exact Or.inl h
      · exact Or.inr (List.mem_singleton.1 h)
    · rw [if_neg hr] at hx
      exact Or.inl hx

theorem bikeStage_snd_mem (t : TagMap) (p : List LaneType × List LaneType) :
    ∀ x ∈ (bikeStage t p).2, x ∈ p.2 ∨ x = .Biking := by
  intro x hx
  unfold bikeStage at hx
  by_cases hc : getTag t "cycleway" = some "lane"
  · rw [if_pos hc] at hx
    by_cases he : p.2.isEmpty = true
    · rw [if_pos he] at hx
      exact Or.inl hx
    · rw [if_neg he] at hx
      rcases List.mem_append.1 hx with h | h
      · exact Or.inl h
      · exact Or.inr (List.mem_singleton.1 h)
  · rw [if_neg hc] at hx
    by_cases hl : getTag t "cycleway:left" = some "lane"
    · rw [if_pos hl] at hx
      rcases List.mem_append.1 hx with h | h
      · exact Or.inl h
      · exact Or.inr (List.mem_singleton.1 h)
    · rw [if_neg hl] at hx
      exact Or.inl hx

theorem parkingStage_fst_mem (t : TagMap) (p : List LaneType × List LaneType) :
    ∀ x ∈ (parkingStage t p).1, x ∈ p.1 ∨ x = .Parking := by
  intro x hx
  unfold parkingStage at hx
  by_cases hc : parking_lane_fwd t = true ∧ ¬ definitely_no_parking t = true
  · rw [if_pos hc] at hx
    rcases List.mem_append.1 hx with h | h
    · exact Or.inl h
    · exact Or.inr (List.mem_singleton.1 h)
  · rw [if_neg hc] at hx
    exact Or.inl hx

theorem parkingStage_snd_mem (t : TagMap) (p : List LaneType × List LaneType) :
    ∀ x ∈ (parkingStage t p).2, x ∈ p.2 ∨ x = .Parking := by
  intro x hx
  unfold parkingStage at hx
  by_cases hc : parking_lane_back t = true ∧ ¬ definitely_no_parking t = true ∧ ¬ p.2.isEmpty = true
  · rw [if_pos hc] at hx
    rcases List.mem_append.1 hx with h | h
    · exact Or.inl h
    · exact Or.inr (List.mem_singleton.1 h)
  · rw [if_neg hc] at hx
    exact Or.inl hx

theorem preParking_fst_mem (t : TagMap) :
    ∀ x ∈ (bikeStage t (busStage t (drivingSides t))).1,
      x = .Driving ∨ x = .Bus ∨ x = .Biking := by
  intro x hx
  rcases bikeStage_fst_mem t _ x hx with h | h
  · rcases busStage_fst_mem t _ x h with h2 | h2
    · exact Or.inl (List.eq_of_mem_replicate h2)
    · exact Or.inr (Or.inl h2)
  · exact Or.inr (Or.inr h)

theorem preParking_snd_mem (t : TagMap) :
    ∀ x ∈ (bikeStage t (busStage t (drivingSides t))).2,
      x = .Driving ∨ x = .Bus ∨ x = .Biking := by
  intro x hx
  rcases bikeStage_snd_mem t _ x hx with h | h
  · rcases busStage_snd_mem t _ x h with h2 | h2
    · exact Or.inl (List.eq_of_mem_replicate h2)
    · exact Or.inr (Or.inl h2)
  · exact Or.inr (Or.inr h)

theorem preParking_no_parking_fst (t : TagMap) :
    LaneType.Parking ∉ (bikeStage t (busStage t (drivingSides t))).1 := by
  intro h
  rcases preParking_fst_mem t _ h with h | h | h <;> cases h

theorem preParking_no_parking_snd (t : TagMap) :
    LaneType.Parking ∉ (bikeStage t (busStage t (drivingSides t))).2 := by
  intro h
  rcases preParking_snd_mem t _ h with h | h | h <;> cases h

theorem preSidewalk_no_sidewalk_fst (t : TagMap) :
    LaneType.Sidewalk ∉ (parkingStage t (bikeStage t (busStage t (drivingSides t)))).1 := by
  intro h
  rcases parkingStage_fst_mem t _ _ h with h | h
  · rcases preParking_fst_mem t _ h with h | h | h <;> cases h
  · cases h

theorem preSidewalk_no_sidewalk_snd (t : TagMap) :
    LaneType.Sidewalk ∉ (parkingStage t (bikeStage t (busStage t (drivingSides t)))).2 := by
  intro h
  rcases parkingStage_snd_mem t _ _ h with h | h
  · rcases preParking_snd_mem t _ h with h | h | h <;> cases h
  · cases h

/-! ### Engine claims -/

/-- C2: when the synthetic-override key is present, `get_lane_types` is
exactly the decode of its value: a successful decode is returned unchanged
(no later rule applies) and a failed decode is the fatal panic (`none`). -/
theorem override_precedence (t : TagMap) (s : String)
    (h : getTag t osm.SYNTHETIC_LANES = some s) :
    get_lane_types t = (RoadSpec.parse s).map (fun spec => (spec.fwd, spec.back)) := by
  unfold get_lane_types
  rw [h]

theorem override_precedence_witness :
    get_lane_types [(osm.SYNTHETIC_LANES, "ds/s"), ("highway", "motorway")] =
      some ([.Driving, .Sidewalk], [.Sidewalk]) ∧
    get_lane_types [(osm.SYNTHETIC_LANES, "d//x")] = none := by
  constructor
  · rw [override_precedence [(osm.SYNTHETIC_LANES, "ds/s"), ("highway", "motorway")]
      "ds/s" (by decide)]
    decide
  · rw [override_precedence [(osm.SYNTHETIC_LANES, "d//x")] "d//x" (by decide)]
    decide

/-- C4: with no override, no categorical special case, a `lanes` tag that
parses as `n` and no parseable `lanes:forward` / `lanes:backward`: one-way
roads put all `n` driving lanes forward and 0 backward; two-way roads split
evenly for even `n`, and give each side `max(n/2, 1)` (integer division)
for odd `n`. -/
theorem lanes_split (t : TagMap) (n : Nat)
    (hov : getTag t osm.SYNTHETIC_LANES = none)
    (hrb : getTag t "junction" ≠ some "roundabout")
    (hfw : getTag t osm.HIGHWAY ≠ some "footway")
    (hl : (getTag t "lanes").bind parseUsize = some n)
    (hlf : (getTag t "lanes:forward").bind parseUsize = none)
    (hlb : (getTag t "lanes:backward").bind parseUsize = none) :
    (oneway t = true → num_driving_fwd t = n ∧ num_driving_back t = 0) ∧
    (oneway t = false →
      (n % 2 = 0 → num_driving_fwd t = n / 2 ∧ num_driving_back t = n / 2) ∧
      (n % 2 ≠ 0 → num_driving_fwd t = max (n / 2) 1 ∧
        num_driving_back t = max (n / 2) 1)) := by
  unfold num_driving_fwd num_driving_back
  rw [hl, hlf, hlb]
  refine ⟨fun ho => ?_, fun ho => ⟨fun he => ?_, fun he => ?_⟩⟩
  · simp [ho]
  · simp [ho, he]
  · simp [ho, he]

theorem lanes_split_witness :
    num_driving_fwd [("highway", "primary"), ("oneway", "yes"), ("lanes", "3")] = 3 ∧
    num_driving_back [("highway", "primary"), ("oneway", "yes"), ("lanes", "3")] = 0 :=
  (lanes_split [("highway", "primary"), ("oneway", "yes"), ("lanes", "3")] 3
    (by decide) (by decide) (by decide) (by decide) (by decide) (by decide)).1 (by decide)

/-- C8: `get_lane_types` never panics unless the synthetic-override key is
present with a value that fails to decode: for every tag mapping that lacks
the key, or whose value decodes, the engine returns a layout (`some`). -/
theorem engine_total (t : TagMap)
    (h : getTag t osm.SYNTHETIC_LANES = none ∨
      ∃ s spec, getTag t osm.SYNTHETIC_LANES = some s ∧ RoadSpec.parse s = some spec) :
    get_lane_types t ≠ none := by
  unfold get_lane_types
  rcases h with h | ⟨s, spec, hs, hp⟩
  · rw [h]
    simp
  · rw [hs]
    simp [hp]

theorem engine_total_witness : get_lane_types [("lanes", "junk")] ≠ none :=
  engine_total [("lanes", "junk")] (Or.inl (by decide))

/-- C9: with a `bus:lanes` key present and a computed forward driving count
of zero, the forward sequence is empty, the `pop` is a no-op, and the bus
block appends a `Bus` entry: the forward side grows from 0 to 1 entries
instead of having a `Driving` lane substituted. -/
theorem bus_append_on_empty (t : TagMap)
    (hov : getTag t osm.SYNTHETIC_LANES = none)
    (hrb : getTag t "junction" ≠ some "roundabout")
    (hfw : getTag t osm.HIGHWAY ≠ some "footway")
    (hb : (getTag t "bus:lanes").isSome = true)
    (hf : num_driving_fwd t = 0) :
    (drivingSides t).1 = [] ∧ (busStage t (drivingSides t)).1 = [.Bus] := by
  have h1 : (drivingSides t).1 = [] := by
    unfold drivingSides
    rw [hf]
    rfl
  refine ⟨h1, ?_⟩
  unfold busStage
  rw [if_pos hb, h1]
  rfl

theorem bus_append_on_empty_witness :
    (drivingSides [("lanes:forward", "0"), ("oneway", "yes"), ("bus:lanes", "x")]).1 = [] ∧
    (busStage [("lanes:forward", "0"), ("oneway", "yes"), ("bus:lanes", "x")]
      (drivingSides [("lanes:forward", "0"), ("oneway", "yes"), ("bus:lanes", "x")])).1 =
      [.Bus] :=
  bus_append_on_empty [("lanes:forward", "0"), ("oneway", "yes"), ("bus:lanes", "x")]
    (by decide) (by decide) (by decide) (by decide) (by decide)

theorem dropLast_replicate {α : Type} (n : Nat) (a : α) :
    (List.replicate (n + 1) a).dropLast = List.replicate n a := by
  rw [List.replicate_succ' n a, List.dropLast_concat]

/-- C5 (counterexample): with `lanes:forward = 0` on a one-way road and a
`bus:lanes` key, the bus block changes the forward sequence's length (it
grows from 0 to 1), refuting the claim that this step never changes it. -/
theorem bus_substitution_counterexample :
    (busStage [("lanes:forward", "0"), ("oneway", "yes"), ("bus:lanes", "y")]
        (drivingSides [("lanes:forward", "0"), ("oneway", "yes"), ("bus:lanes", "y")])).1.length ≠
      (drivingSides [("lanes:forward", "0"), ("oneway", "yes"), ("bus:lanes", "y")]).1.length := by
  decide

/-- C5 (amended): with a `bus:lanes` key present and at least one forward
driving lane, the bus block replaces the last (`Driving`) entry of the
forward sequence by a single `Bus`, leaving its length unchanged, and
applies the same replacement to the backward sequence exactly when that
sequence is non-empty. -/
theorem bus_substitution (t : TagMap)
    (hov : getTag t osm.SYNTHETIC_LANES = none)
    (hrb : getTag t "junction" ≠ some "roundabout")
    (hfw : getTag t osm.HIGHWAY ≠ some "footway")
    (hb : (getTag t "bus:lanes").isSome = true)
    (hf : 1 ≤ num_driving_fwd t) :
    (busStage t (drivingSides t)).1 =
      List.replicate (num_driving_fwd t - 1) .Driving ++ [.Bus] ∧
    (busStage t (drivingSides t)).1.length = (drivingSides t).1.length ∧
    (num_driving_back t = 0 → (busStage t (drivingSides t)).2 = []) ∧
    (1 ≤ num_driving_back t → (busStage t (drivingSides t)).2 =
      List.replicate (num_driving_back t - 1) .Driving ++ [.Bus]) := by
  obtain ⟨m, hm⟩ : ∃ m, num_driving_fwd t = m + 1 :=
    ⟨num_driving_fwd t - 1, (Nat.succ_pred_eq_of_pos hf).symm⟩
  have hfst : (busStage t (drivingSides t)).1 =
      List.replicate (num_driving_fwd t - 1) LaneType.Driving ++ [.Bus] := by
    unfold busStage drivingSides
    rw [if_pos hb]
    show (List.replicate (num_driving_fwd t) LaneType.Driving).dropLast ++ [LaneType.Bus] = _
    rw [hm, dropLast_replicate]
    simp
  refine ⟨hfst, ?_, fun h0 => ?_, fun h1 => ?_⟩
  · rw [hfst]
    unfold drivingSides
    simp [hm]
  · unfold busStage drivingSides
    rw [if_pos hb, h0]
    rfl
  · obtain ⟨k, hk⟩ : ∃ k, num_driving_back t = k + 1 :=
      ⟨num_driving_back t - 1, (Nat.succ_pred_eq_of_pos h1).symm⟩
    unfold busStage drivingSides
    rw [if_pos hb]
    show (if (List.replicate (num_driving_back t) LaneType.Driving).isEmpty = true then
        List.replicate (num_driving_back t) LaneType.Driving
      else (List.replicate (num_driving_back t) LaneType.Driving).dropLast ++ [LaneType.Bus]) = _
    rw [hk, if_neg (by simp), dropLast_replicate]
    simp

theorem bus_substitution_witness :
    (busStage [("highway", "residential"), ("lanes", "2"), ("bus:lanes", "x")]
        (drivingSides [("highway", "residential"), ("lanes", "2"), ("bus:lanes", "x")])).1 =
      List.replicate 0 .Driving ++ [.Bus] :=
  (bus_substitution [("highway", "residential"), ("lanes", "2"), ("bus:lanes", "x")]
    (by decide) (by decide) (by decide) (by decide) (by decide)).1

theorem parkingStage_fst_eq (t : TagMap) (p : List LaneType × List LaneType) :
    (parkingStage t p).1 =
      if parking_lane_fwd t = true ∧ ¬ definitely_no_parking t = true then
        p.1 ++ [.Parking]
      else p.1 := rfl

theorem parkingStage_snd_eq (t : TagMap) (p : List LaneType × List LaneType) :
    (parkingStage t p).2 =
      if parking_lane_back t = true ∧ ¬ definitely_no_parking t = true ∧
          ¬ p.2.isEmpty = true then
        p.2 ++ [.Parking]
      else p.2 := rfl

/-- C6 (counterexample): a direction with no driving lanes can still gain a
`Parking` lane: with `lanes:forward = 0`, `oneway = yes` and the forward
parking flag set, the forward sequence is empty yet the parking block
appends `Parking`. -/
theorem parking_no_driving_counterexample :
    num_driving_fwd
        [("lanes:forward", "0"), ("oneway", "yes"), (osm.PARKING_LANE_FWD, "true")] = 0 ∧
    LaneType.Parking ∈
      (parkingStage [("lanes:forward", "0"), ("oneway", "yes"), (osm.PARKING_LANE_FWD, "true")]
        (bikeStage [("lanes:forward", "0"), ("oneway", "yes"), (osm.PARKING_LANE_FWD, "true")]
          (busStage [("lanes:forward", "0"), ("oneway", "yes"), (osm.PARKING_LANE_FWD, "true")]
            (drivingSides
              [("lanes:forward", "0"), ("oneway", "yes"), (osm.PARKING_LANE_FWD, "true")])))).1 := by
  decide

/-- C6 (amended): after the parking block, a direction's sequence ends with
`Parking` exactly when its parking flag tag equals `true` and the `highway`
value neither ends with `_link` nor equals `motorway` — and, for the
backward side only, the backward sequence built so far is non-empty (so no
parking lane is added to an empty backward side; the forward side has no
such guard). -/
theorem parking_rule (t : TagMap)
    (hov : getTag t osm.SYNTHETIC_LANES = none)
    (hrb : getTag t "junction" ≠ some "roundabout")
    (hfw : getTag t osm.HIGHWAY ≠ some "footway") :
    ((parkingStage t (bikeStage t (busStage t (drivingSides t)))).1.getLast? =
        some .Parking ↔
      (parking_lane_fwd t = true ∧ definitely_no_parking t = false)) ∧
    ((parkingStage t (bikeStage t (busStage t (drivingSides t)))).2.getLast? =
        some .Parking ↔
      (parking_lane_back t = true ∧ definitely_no_parking t = false ∧
        (bikeStage t (busStage t (drivingSides t))).2 ≠ [])) := by
  constructor
  · rw [parkingStage_fst_eq]
    by_cases hc : parking_lane_fwd t = true ∧ ¬ definitely_no_parking t = true
    · rw [if_pos hc, List.getLast?_concat]
      have hd : definitely_no_parking t = false := by simpa using hc.2
      exact ⟨fun _ => ⟨hc.1, hd⟩, fun _ => rfl⟩
    · rw [if_neg hc]
      constructor
      · intro h
        exact absurd (mem_of_getLast?_eq h) (preParking_no_parking_fst t)
      · rintro ⟨h1, h2⟩
        exact absurd ⟨h1, by simp [h2]⟩ hc
  · rw [parkingStage_snd_eq]
    by_cases hc : parking_lane_back t = true ∧ ¬ definitely_no_parking t = true ∧
        ¬ (bikeStage t (busStage t (drivingSides t))).2.isEmpty = true
    · rw [if_pos hc, List.getLast?_concat]
      have hd : definitely_no_parking t = false := by simpa using hc.2.1
      have hne : (bikeStage t (busStage t (drivingSides t))).2 ≠ [] := by
        simpa [List.isEmpty_iff] using hc.2.2
      exact ⟨fun _ => ⟨hc.1, hd, hne⟩, fun _ => rfl⟩
    · rw [if_neg hc]
      constructor
      · intro h
        exact absurd (mem_of_getLast?_eq h) (preParking_no_parking_snd t)
      · rintro ⟨h1, h2, h3⟩
        refine absurd ⟨h1, by simp [h2], ?_⟩ hc
        simpa [List.isEmpty_iff] using h3

theorem parking_rule_witness :
    (parkingStage [("highway", "residential"), ("lanes", "2"), (osm.PARKING_LANE_FWD, "true")]
        (bikeStage [("highway", "residential"), ("lanes", "2"), (osm.PARKING_LANE_FWD, "true")]
          (busStage [("highway", "residential"), ("lanes", "2"), (osm.PARKING_LANE_FWD, "true")]
            (drivingSides
              [("highway", "residential"), ("lanes", "2"), (osm.PARKING_LANE_FWD, "true")])))).1.getLast? =
      some .Parking :=
  ((parking_rule [("highway", "residential"), ("lanes", "2"), (osm.PARKING_LANE_FWD, "true")]
    (by decide) (by decide) (by decide)).1).mpr ⟨by decide, by decide⟩

theorem sidewalkStage_of_has (t : TagMap) (p : List LaneType × List LaneType)
    (hs : has_sidewalk t = true) :
    sidewalkStage t p =
      (p.1 ++ [.Sidewalk],
       if oneway t = true then
         if getTag t osm.HIGHWAY = some "residential" ∨
             getTag t "sidewalk" = some "both" then
           p.2 ++ [.Sidewalk]
         else p.2
       else p.2 ++ [.Sidewalk]) := by
  unfold sidewalkStage
  rw [if_pos hs]

/-- C7: with no override and no categorical special case, a `motorway` or
`motorway_link` highway value suppresses sidewalks entirely; otherwise the
forward sequence always ends with `Sidewalk`, and the backward sequence
ends with `Sidewalk` exactly when the road is not one-way, or `highway`
equals `residential`, or the `sidewalk` tag equals `both`. -/
theorem sidewalk_rule (t : TagMap)
    (hov : getTag t osm.SYNTHETIC_LANES = none)
    (hrb : getTag t "junction" ≠ some "roundabout")
    (hfw : getTag t osm.HIGHWAY ≠ some "footway") :
    ((getTag t osm.HIGHWAY = some "motorway" ∨
        getTag t osm.HIGHWAY = some "motorway_link") →
      LaneType.Sidewalk ∉ (inferFromTags t).1 ∧
        LaneType.Sidewalk ∉ (inferFromTags t).2) ∧
    (getTag t osm.HIGHWAY ≠ some "motorway" →
      getTag t osm.HIGHWAY ≠ some "motorway_link" →
      (inferFromTags t).1.getLast? = some .Sidewalk ∧
      ((inferFromTags t).2.getLast? = some .Sidewalk ↔
        (oneway t = false ∨ getTag t osm.HIGHWAY = some "residential" ∨
          getTag t "sidewalk" = some "both"))) := by
  have hinf : inferFromTags t =
      sidewalkStage t (parkingStage t (bikeStage t (busStage t (drivingSides t)))) := by
    unfold inferFromTags
    rw [if_neg hrb, if_neg hfw]
  rw [hinf]
  constructor
  · intro hm
    have hs : has_sidewalk t = false := by
      rcases hm with h | h <;> simp [has_sidewalk, h]
    unfold sidewalkStage
    rw [if_neg (by simp [hs])]
    exact ⟨preSidewalk_no_sidewalk_fst t, preSidewalk_no_sidewalk_snd t⟩
  · intro h1 h2
    have hs : has_sidewalk t = true := by simp [has_sidewalk, h1, h2]
    rw [sidewalkStage_of_has t _ hs]
    refine ⟨List.getLast?_concat _, ?_⟩
    cases ho : oneway t with
    | false =>
        rw [if_neg (by simp [ho])]
        exact ⟨fun _ => Or.inl rfl, fun _ => List.getLast?_concat _⟩
    | true =>
        rw [if_pos rfl]
        by_cases hcond : getTag t osm.HIGHWAY = some "residential" ∨
            getTag t "sidewalk" = some "both"
        · rw [if_pos hcond]
          exact ⟨fun _ => Or.inr hcond, fun _ => List.getLast?_concat _⟩
        · rw [if_neg hcond]
          constructor
          · intro h
            exact absurd (mem_of_getLast?_eq h) (preSidewalk_no_sidewalk_snd t)
          · rintro (ha | hbc)
            · cases ha
            · exact absurd hbc hcond

theorem sidewalk_rule_witness :
    LaneType.Sidewalk ∉ (inferFromTags [("highway", "motorway"), ("lanes", "4")]).1 ∧
    LaneType.Sidewalk ∉ (inferFromTags [("highway", "motorway"), ("lanes", "4")]).2 :=
  (sidewalk_rule [("highway", "motorway"), ("lanes", "4")]
    (by decide) (by decide) (by decide)).1 (Or.inl (by decide))
